import Mathlib

set_option maxRecDepth 10000

/-!
Verification of the nanobot persistent-memory subsystem.

This file shallowly embeds the memory search, enumeration, validation and
consolidation code of the nanobot repository
(`nanobot/agent/memory.py`, `nanobot/agent/tools/memory.py`,
`nanobot/agent/memory_consolidator.py`) and proves or refutes the frozen
claims about it.

Modelling conventions:
* Python strings are Lean `String`/`List Char`; character case folding and
  word characters are modelled over the ASCII range (the data handled by the
  code is markdown text).
* The Python `re` module is external to the repository.  Its two effects on
  the embedded code, "does this pattern compile" and "does this compiled
  pattern match this line", are abstracted as oracles
  `compilesCI : String → Bool` and `rsearch : String → String → Bool` that
  every theorem universally quantifies over.  The keyword path does not need
  an oracle: the code builds `\b<escaped literal>\b` patterns itself, whose
  whole-word, case-insensitive match semantics is embedded concretely
  (`wholeWordMatch`).
* The file system is a value: a directory is a `List DirEntry`, a file's
  text is its list of lines (already split, without trailing newlines; this
  is faithful for `\b`-anchored matching because a trailing `"\n"` and the
  end of the string are both non-word positions).
* The LLM provider and the consolidation file tools are external
  collaborators; they are abstracted as functions returning `Except`, an
  exception being an `Except.error`.
-/

/-! ## Character helpers (ASCII model of Python's `\w`, `str.rstrip`, case folding) -/

/-- Python `\w` word character over ASCII: alphanumeric or underscore. -/
def pyIsWord (c : Char) : Bool := c.isAlphanum || c = '_'

/-- Whitespace stripped by Python `str.rstrip()` (ASCII whitespace). -/
def pyIsSpace (c : Char) : Bool :=
  c = ' ' || c = '\t' || c = '\n' || c = '\r' || c = '\x0b' || c = '\x0c'

/-- `line.rstrip()` on a character list. -/
def rstripList (l : List Char) : List Char :=
  (l.reverse.dropWhile pyIsSpace).reverse

/-- `line.rstrip()`. -/
def rstrip (s : String) : String := String.mk (rstripList s.data)

/-- Case-insensitive character comparison (ASCII fold, modelling
`re.IGNORECASE` on the markdown text the code handles). -/
def charEqCI (a b : Char) : Bool := a.toLower = b.toLower

/-! ## Whole-word keyword matching

The code turns each keyword into the regex `r'\b' + re.escape(kw) + r'\b'`
and runs `pattern.search(line)` with `re.IGNORECASE`.  Because the keyword
body is escaped it matches literally; the embedding below is the search
semantics of that anchored literal pattern: some position of the line starts
a case-insensitive copy of the keyword with a word boundary on each side
(`\b` holds between two positions of different word-ness; the ends of the
line count as non-word). -/

/-- Word-ness of the first character of a suffix (`false` at end of line). -/
def isWordHead : List Char → Bool
  | [] => false
  | c :: _ => pyIsWord c

/-- Match the remaining keyword characters at the head of `line`;
`prevW` is the word-ness of the character just before the current
position.  When the keyword is exhausted the closing `\b` is checked. -/
def matchKwRest (kw : List Char) (prevW : Bool) (line : List Char) : Bool :=
  match kw, line with
  | [], rest => prevW != isWordHead rest
  | _ :: _, [] => false
  | a :: as, b :: bs => charEqCI a b && matchKwRest as (pyIsWord b) bs

/-- `re.search` over all start positions: at each position require the
opening `\b` and then the literal keyword followed by the closing `\b`. -/
def kwSearchFrom (kw : List Char) (prevW : Bool) : List Char → Bool
  | [] => (prevW != false) && matchKwRest kw prevW []
  | c :: rest =>
      ((prevW != pyIsWord c) && matchKwRest kw prevW (c :: rest)) ||
      kwSearchFrom kw (pyIsWord c) rest

/-- Semantics of `re.search(r'\b' + re.escape(kw) + r'\b', line, re.IGNORECASE)`. -/
def wholeWordMatch (kw line : String) : Bool :=
  kwSearchFrom kw.data false line.data

/-! ## The regex safety validator (`MemorySearchTool._validate_regex`)

The five danger detectors of the source are fixed regexes; their search
semantics over the pattern string is embedded concretely.
`\([^)]*q1[^)]*\)q2` (with `q1`,`q2` drawn from `+`/`*`) matches iff the
pattern has a `'('`, whose following characters up to the first `')'`
contain `q1` and contain no `')'`, and that `')'` is immediately followed
by `q2`.  `{\d{3,}` matches iff a `'{'` is immediately followed by three
digits. -/

/-- Scan after a `'('`: `seen` records whether `q1` occurred among the
non-`')'` characters; at the first `')'` the match succeeds iff `q1` was
seen and the next character is `q2`. -/
def nestedAfterParen (q1 q2 : Char) : Bool → List Char → Bool
  | _, [] => false
  | seen, c :: rest =>
      if c = ')' then
        seen && (match rest with | c2 :: _ => c2 = q2 | [] => false)
      else
        nestedAfterParen q1 q2 (seen || c = q1) rest

/-- Search semantics of the danger detector `\([^)]*q1[^)]*\)q2`. -/
def hasNestedQuant (q1 q2 : Char) : List Char → Bool
  | [] => false
  | c :: rest => (c = '(' && nestedAfterParen q1 q2 false rest) || hasNestedQuant q1 q2 rest

/-- Three leading digits. -/
def threeDigits : List Char → Bool
  | d1 :: d2 :: d3 :: _ => d1.isDigit && d2.isDigit && d3.isDigit
  | _ => false

/-- Search semantics of the danger detector `{\d{3,}`. -/
def hasLargeRepetition : List Char → Bool
  | [] => false
  | c :: rest => (c = '\x7b' && threeDigits rest) || hasLargeRepetition rest

/-- `MemorySearchTool._validate_regex`.  `compilesCI p` abstracts
"`re.compile(p, re.IGNORECASE)` succeeds".  The Python function returns
a `bool` on every path (all exceptions are caught inside it); the Lean
embedding is correspondingly total. -/
def validate_regex (compilesCI : String → Bool) (p : String) : Bool :=
  if p.length > 500 then false
  else if hasNestedQuant '+' '+' p.data then false
  else if hasNestedQuant '*' '*' p.data then false
  else if hasNestedQuant '*' '+' p.data then false
  else if hasNestedQuant '+' '*' p.data then false
  else if hasLargeRepetition p.data then false
  else compilesCI p

/-! Claim-side shape notion for C3.  The claim reads the five shapes as
"(a parenthesized group with a `+`- or `*`-quantified sub-term, itself
repeated with `+` or `*`)" over arbitrary inner content, i.e. the pattern
contains `(X q1 ) q2` for some (arbitrary) `X`.  The code's detectors are
strictly narrower (`[^)]*` forbids `')'` inside the group), so the two are
formalised separately and compared. -/

/-- Is there a `q1`,`')'`,`q2` triple of consecutive characters? -/
def hasQuantTriple (q1 q2 : Char) : List Char → Bool
  | a :: b :: c :: rest =>
      (a = q1 && b = ')' && c = q2) || hasQuantTriple q1 q2 (b :: c :: rest)
  | _ => false

/-- Claim-side shape `( X q1 ) q2` with arbitrary inner content `X`:
a `'('` followed (anywhere later) by consecutive `q1`,`')'`,`q2`. -/
def specNestedShape (q1 q2 : Char) : List Char → Bool
  | [] => false
  | c :: rest => (c = '(' && hasQuantTriple q1 q2 rest) || specNestedShape q1 q2 rest

/-! ## The archive directory model and daily-file enumeration

A directory is a list of entries in arbitrary (`iterdir`) order; an entry
carries its filename, whether it is a regular file, and its text as a list
of lines.  `sorted(paths, reverse=True)` on paths of one directory compares
the filenames as strings, i.e. lexicographically by code point. -/

structure DirEntry where
  name : String
  isFile : Bool
  lines : List String
deriving DecidableEq

/-- Lexicographic (code-point) strict comparison of Python strings. -/
def lexLt : List Char → List Char → Bool
  | [], [] => false
  | [], _ :: _ => true
  | _ :: _, [] => false
  | a :: as, b :: bs => Nat.blt a.toNat b.toNat || (a.toNat == b.toNat && lexLt as bs)

/-- One step of `sorted(..., reverse=True)`: insert keeping descending
filename order (stable: an incoming entry goes before an equal name). -/
def insertByNameDesc (e : DirEntry) : List DirEntry → List DirEntry
  | [] => [e]
  | x :: xs =>
      if lexLt e.name.data x.name.data then x :: insertByNameDesc e xs
      else e :: x :: xs

/-- `sorted(entries, reverse=True)` by filename. -/
def sortByNameDesc : List DirEntry → List DirEntry
  | [] => []
  | x :: xs => insertByNameDesc x (sortByNameDesc xs)

/-- Full match of the strict daily-file regex `^\d{4}-\d{2}-\d{2}\.md$`. -/
def isDailyName : List Char → Bool
  | [y1, y2, y3, y4, s1, m1, m2, s2, d1, d2, dot, mc, dc] =>
      y1.isDigit && (y2.isDigit && (y3.isDigit && (y4.isDigit && (s1 = '-' &&
      (m1.isDigit && (m2.isDigit && (s2 = '-' && (d1.isDigit && (d2.isDigit &&
      (dot = '.' && (mc = 'm' && dc = 'd')))))))))))
  | _ => false

/-- Full match of the glob `????-??-??.md` used by
`MemoryStore.list_memory_files`: `?` matches ANY single character, so only
the separators and the extension are constrained. -/
def isGlobDailyName : List Char → Bool
  | [_, _, _, _, s1, _, _, s2, _, _, dot, mc, dc] =>
      s1 = '-' && s2 = '-' && dot = '.' && mc = 'm' && dc = 'd'
  | _ => false

/-- `MemoryStore._get_daily_memory_files`: keep regular files whose name
matches the strict date regex, newest (largest name) first. -/
def MemoryStore.get_daily_memory_files (dir : List DirEntry) : List DirEntry :=
  sortByNameDesc (dir.filter (fun e => e.isFile && isDailyName e.name.data))

/-- `MemorySearchTool._get_daily_memory_files` (textually duplicated in the
source with the same body). -/
def MemorySearchTool.get_daily_memory_files (dir : List DirEntry) : List DirEntry :=
  sortByNameDesc (dir.filter (fun e => e.isFile && isDailyName e.name.data))

/-- `MemoryStore.list_memory_files`: `glob("????-??-??.md")` (note: no
`is_file` filter) sorted descending.  The glob accepts any characters in
the `?` positions. -/
def MemoryStore.list_memory_files (dir : List DirEntry) : List DirEntry :=
  sortByNameDesc (dir.filter (fun e => isGlobDailyName e.name.data))

/-- Numeric value of an ASCII digit character. -/
def digitVal (c : Char) : Nat := c.toNat - 48

/-- Value of a big-endian digit string. -/
def natOfDigits (l : List Char) : Nat :=
  l.foldl (fun n c => n * 10 + digitVal c) 0

/-- The date of a daily filename `YYYY-MM-DD.md` read as the number
`YYYYMMDD` (its digit characters in order; larger means newer). -/
def dateKey (s : String) : Nat := natOfDigits (s.data.filter Char.isDigit)

/-! ## Line search (`_grep_file` in both components)

A compiled pattern is either a keyword pattern (built by the code itself,
matched by the concrete `wholeWordMatch`) or a user regex (matched through
the `rsearch` oracle).  Keyword compilation (`re.compile` of an escaped
literal between `\b`s) never fails, so the `try/except re.error` around it
never drops a keyword. -/

inductive Pat where
  | kw : String → Pat
  | rx : String → Pat
deriving DecidableEq

/-- `pattern.search(line)` for a compiled pattern. -/
def Pat.matchesLine (rsearch : String → String → Bool) : Pat → String → Bool
  | .kw k, line => wholeWordMatch k line
  | .rx p, line => rsearch p line

/-- Pattern list built by `MemoryStore._grep_file`: keywords first, then
every regex pattern that COMPILES (`try: re.compile ... except re.error:
continue`) — the store performs NO safety validation. -/
def MemoryStore.buildPatterns (compilesCI : String → Bool)
    (keywords regex_patterns : List String) : List Pat :=
  keywords.map Pat.kw ++ (regex_patterns.filter compilesCI).map Pat.rx

/-- Pattern list built by `MemorySearchTool._grep_file`: keywords first,
then every regex pattern accepted by `_validate_regex` (whose final step is
the same compilation, so the inner `try: re.compile` never fails for an
accepted pattern). -/
def MemorySearchTool.buildPatterns (compilesCI : String → Bool)
    (keywords regex_patterns : List String) : List Pat :=
  keywords.map Pat.kw ++
    (regex_patterns.filter (fun p => validate_regex compilesCI p)).map Pat.rx

/-- The shared scan loop of both `_grep_file`s: for each line in file
order, if some pattern (tried in registration order) matches, record
`line.rstrip()` once and move on (`break`). -/
def scanLines (rsearch : String → String → Bool) (patterns : List Pat)
    (lines : List String) : List String :=
  lines.filterMap (fun line =>
    if patterns.any (fun p => p.matchesLine rsearch line) then some (rstrip line)
    else none)

/-- `MemoryStore._grep_file` on a readable file. -/
def MemoryStore.grep_file (compilesCI : String → Bool)
    (rsearch : String → String → Bool)
    (keywords regex_patterns : List String) (lines : List String) : List String :=
  let patterns := MemoryStore.buildPatterns compilesCI keywords regex_patterns
  if patterns.isEmpty then [] else scanLines rsearch patterns lines

/-- `MemorySearchTool._grep_file` on a readable file. -/
def MemorySearchTool.grep_file (compilesCI : String → Bool)
    (rsearch : String → String → Bool)
    (keywords regex_patterns : List String) (lines : List String) : List String :=
  let patterns := MemorySearchTool.buildPatterns compilesCI keywords regex_patterns
  if patterns.isEmpty then [] else scanLines rsearch patterns lines

/-! ## The result-collection loop shared by `search_daily_memories` and
`execute`

`max_results` is a Python `int`, so it is an `Int` here.  Results are
appended one at a time; after each append — and after each file — the code
breaks as soon as `len(all_results) >= max_results`. -/

structure ResultEntry where
  file : String
  line : String
deriving DecidableEq

/-- Inner loop: `for result in results: all_results.append(...); if
len(all_results) >= max_results: break`. -/
def innerCollect (k : Int) (fname : String) (acc : List ResultEntry) :
    List String → List ResultEntry
  | [] => acc
  | r :: rs =>
      let acc2 := acc ++ [⟨fname, r⟩]
      if k ≤ (acc2.length : Int) then acc2 else innerCollect k fname acc2 rs

/-- Outer loop over the enumerated daily files with the same break. -/
def outerCollect (grepF : DirEntry → List String) (k : Int)
    (acc : List ResultEntry) : List DirEntry → List ResultEntry
  | [] => acc
  | f :: fs =>
      let acc2 := innerCollect k f.name acc (grepF f)
      if k ≤ (acc2.length : Int) then acc2 else outerCollect grepF k acc2 fs

/-- All matches of a whole file, tagged with the filename. -/
def fileMatches (grepF : DirEntry → List String) (f : DirEntry) : List ResultEntry :=
  (grepF f).map (fun l => ⟨f.name, l⟩)

/-- The full uncapped match stream of the store search, in enumeration
(newest-file-first) order and in-file top-to-bottom order. -/
def MemoryStore.allMatches (compilesCI : String → Bool)
    (rsearch : String → String → Bool) (dir : List DirEntry)
    (keywords regex_patterns : List String) : List ResultEntry :=
  (MemoryStore.get_daily_memory_files dir).flatMap
    (fileMatches (fun f => MemoryStore.grep_file compilesCI rsearch keywords regex_patterns f.lines))

/-- The full uncapped match stream of the tool search. -/
def MemorySearchTool.allMatches (compilesCI : String → Bool)
    (rsearch : String → String → Bool) (dir : List DirEntry)
    (keywords regex_patterns : List String) : List ResultEntry :=
  (MemorySearchTool.get_daily_memory_files dir).flatMap
    (fileMatches (fun f => MemorySearchTool.grep_file compilesCI rsearch keywords regex_patterns f.lines))

/-- The `all_results` list computed by `MemoryStore.search_daily_memories`
(empty keyword and pattern lists model the Python `None`/`[]` falsy cases). -/
def MemoryStore.searchResults (compilesCI : String → Bool)
    (rsearch : String → String → Bool) (dir : List DirEntry)
    (keywords regex_patterns : List String) (max_results : Int) : List ResultEntry :=
  if keywords.isEmpty && regex_patterns.isEmpty then []
  else
    outerCollect
      (fun f => MemoryStore.grep_file compilesCI rsearch keywords regex_patterns f.lines)
      max_results [] (MemoryStore.get_daily_memory_files dir)

/-- `MemoryStore.search_daily_memories` (returned string). -/
def MemoryStore.search_daily_memories (compilesCI : String → Bool)
    (rsearch : String → String → Bool) (dir : List DirEntry)
    (keywords regex_patterns : List String) (max_results : Int) : String :=
  if keywords.isEmpty && regex_patterns.isEmpty then ""
  else
    let daily_files := MemoryStore.get_daily_memory_files dir
    if daily_files.isEmpty then ""
    else
      let all_results := outerCollect
        (fun f => MemoryStore.grep_file compilesCI rsearch keywords regex_patterns f.lines)
        max_results [] daily_files
      if all_results.isEmpty then ""
      else String.intercalate "\n"
        (all_results.map (fun r => "[" ++ r.file ++ "] " ++ r.line))

/-- The `all_results` list computed by `MemorySearchTool.execute`. -/
def MemorySearchTool.executeResults (compilesCI : String → Bool)
    (rsearch : String → String → Bool) (dir : List DirEntry)
    (keywords regex_patterns : List String) (max_results : Int) : List ResultEntry :=
  outerCollect
    (fun f => MemorySearchTool.grep_file compilesCI rsearch keywords regex_patterns f.lines)
    max_results [] (MemorySearchTool.get_daily_memory_files dir)

/-- `MemorySearchTool.execute` (returned string).  The Python signature
declares `max_results: int = 10`; the declared JSON schema additionally
advertises minimum 1 and maximum 50, but `execute` itself applies no
clamping to the value it receives. -/
def MemorySearchTool.execute (compilesCI : String → Bool)
    (rsearch : String → String → Bool) (dir : List DirEntry)
    (keywords regex_patterns : List String) (max_results : Int) : String :=
  if keywords.isEmpty && regex_patterns.isEmpty then
    "Error: No keywords or regex patterns provided"
  else
    let daily_files := MemorySearchTool.get_daily_memory_files dir
    if daily_files.isEmpty then "No historical memory files found."
    else
      let all_results := MemorySearchTool.executeResults compilesCI rsearch dir
        keywords regex_patterns max_results
      if all_results.isEmpty then
        "No matches found for: " ++
          (if !keywords.isEmpty then String.intercalate ", " keywords
           else String.intercalate ", " regex_patterns)
      else
        "Found " ++ toString all_results.length ++ " relevant memories:\n\n" ++
          String.join (all_results.enum.map (fun p =>
            toString (p.1 + 1) ++ ". [" ++ p.2.file ++ "] " ++ p.2.line ++ "\n"))

/-! ## Memory consolidation (`MemoryConsolidator`)

The chat-completion provider and the three registered file tools are
external collaborators.  The provider is a function from the current
transcript to `Except String ProviderResponse`; tool execution is a
function from a tool call to `Except String String`; an `Except.error`
models a raised exception, which the source catches at the top of the
loop (`except Exception as e: return f"Memory consolidation failed: {e}"`).
`datetime.fromisoformat` / `strftime("%H:%M")` are abstracted as a parse
oracle `parseTs : String → Option Nat` (`none` = unparseable; the `Nat` is
a point on the datetime timeline) and a formatting oracle
`fmtHM : Nat → String`.

For the iteration-count claims the embedding returns, alongside the result
string, the number of provider calls made (pure instrumentation: the
source's returned value is the `String` component). -/

structure ToolCall where
  id : String
  name : String
  arguments : String
deriving DecidableEq

structure ProviderResponse where
  content : Option String
  tool_calls : List ToolCall
deriving DecidableEq

structure ChatMessage where
  role : String
  content : String
  tool_calls : List ToolCall
  tool_call_id : Option String
  toolName : Option String
deriving DecidableEq

/-- A plain `{"role": ..., "content": ...}` message. -/
def mkChatMessage (role content : String) : ChatMessage :=
  ⟨role, content, [], none, none⟩

/-- An incoming conversation message handed to `consolidate` (`role`,
`content`, optional `timestamp`; a missing or empty timestamp is `none`). -/
structure InMessage where
  role : String
  content : String
  timestamp : Option String
deriving DecidableEq

/-- `MemoryConsolidator._format_messages`: number each message from 1;
a message with a parseable timestamp renders as `[HH:MM] ROLE: content`,
otherwise as `N. ROLE: content`. -/
def format_messages (parseTs : String → Option Nat) (fmtHM : Nat → String)
    (msgs : List InMessage) : String :=
  String.intercalate "\n" (msgs.enum.map (fun p =>
    let timeStr := match p.2.timestamp with
      | none => ""
      | some ts => match parseTs ts with
        | some dt => fmtHM dt
        | none => ""
    if timeStr ≠ "" then
      "[" ++ timeStr ++ "] " ++ p.2.role.toUpper ++ ": " ++ p.2.content
    else
      toString (p.1 + 1) ++ ". " ++ p.2.role.toUpper ++ ": " ++ p.2.content))

/-- `MemoryConsolidator._get_time_range`: min/max of the parseable
timestamps (compared as datetimes, then formatted), or `"Unknown time"`. -/
def get_time_range (parseTs : String → Option Nat) (fmtHM : Nat → String)
    (msgs : List InMessage) : String :=
  let timestamps := msgs.filterMap (fun m => m.timestamp.bind parseTs)
  match timestamps with
  | [] => "Unknown time"
  | t :: ts =>
      fmtHM (ts.foldl Nat.min t) ++ "-" ++ fmtHM (ts.foldl Nat.max t)

/-- `MemoryConsolidator._build_task_description`.  The interpolated values
(file paths, time range, formatted conversation) are embedded exactly; the
surrounding fixed instruction prose, which nothing in the component ever
inspects, is abbreviated. -/
def build_task_description (memoryDir today : String)
    (parseTs : String → Option Nat) (fmtHM : Nat → String)
    (msgs : List InMessage) : String :=
  let memory_file := memoryDir ++ "/MEMORY.md"
  let daily_file := memoryDir ++ "/" ++ today ++ ".md"
  "You are a memory consolidation agent. Your task is to process a batch of conversation messages and update memory files.\n\n" ++
  "## Files to Update\n\n- Long-term memory: " ++ memory_file ++
  "\n- Daily memory: " ++ daily_file ++
  "\n\n## Conversation Batch to Process\n\nTime Range: " ++
  get_time_range parseTs fmtHM msgs ++ "\n\n" ++
  format_messages parseTs fmtHM msgs ++
  "\n\n## Instructions\n\nExecute these steps now."

/-- The system prompt used by `consolidate`. -/
def consolidationSystemPrompt : String :=
  "You are a memory consolidation agent. Your task is to process conversation history and update memory files efficiently. You have access to read_file, write_file, and edit_file tools to manage memory files."

/-- The transcript seeded before the loop. -/
def initialMessages (memoryDir today : String)
    (parseTs : String → Option Nat) (fmtHM : Nat → String)
    (msgs : List InMessage) : List ChatMessage :=
  [mkChatMessage "system" consolidationSystemPrompt,
   mkChatMessage "user" (build_task_description memoryDir today parseTs fmtHM msgs)]

/-- The assistant message appended when the response has tool calls
(`content = response.content or ""`, raw invocations attached). -/
def assistantMessage (resp : ProviderResponse) : ChatMessage :=
  ⟨"assistant", resp.content.getD "", resp.tool_calls, none, none⟩

/-- The tool-result message appended after executing one invocation,
tagged with the originating invocation's id and name. -/
def toolResultMessage (tc : ToolCall) (result : String) : ChatMessage :=
  ⟨"tool", result, [], some tc.id, some tc.name⟩

/-- Execute each invocation sequentially, appending one tool-result
message per invocation; a raised exception aborts (and is caught by the
caller's `try`). -/
def execToolCalls (toolExec : ToolCall → Except String String)
    (msgs : List ChatMessage) : List ToolCall → Except String (List ChatMessage)
  | [] => .ok msgs
  | tc :: rest =>
      match toolExec tc with
      | .error e => .error e
      | .ok r => execToolCalls toolExec (msgs ++ [toolResultMessage tc r]) rest

/-- The bounded tool-calling loop (`while iteration < max_iterations`),
fuel = remaining iterations, with the provider-call count instrumented.
Every raised exception (`Except.error`, from the provider call or a tool
execution) yields the caught-and-converted failure string. -/
def consolidationLoop (provider : List ChatMessage → Except String ProviderResponse)
    (toolExec : ToolCall → Except String String) :
    Nat → List ChatMessage → Nat → String × Nat
  | 0, _, calls => ("Memory consolidation completed (max iterations reached)", calls)
  | fuel + 1, msgs, calls =>
      match provider msgs with
      | .error e => ("Memory consolidation failed: " ++ e, calls + 1)
      | .ok resp =>
          if resp.tool_calls.isEmpty then
            ("Memory consolidation completed", calls + 1)
          else
            match execToolCalls toolExec (msgs ++ [assistantMessage resp]) resp.tool_calls with
            | .error e => ("Memory consolidation failed: " ++ e, calls + 1)
            | .ok msgs2 => consolidationLoop provider toolExec fuel msgs2 (calls + 1)

/-- `MemoryConsolidator.consolidate`: returned string paired with the
number of provider calls made.  `max_iterations = 10`. -/
def consolidate (provider : List ChatMessage → Except String ProviderResponse)
    (toolExec : ToolCall → Except String String)
    (memoryDir today : String) (parseTs : String → Option Nat)
    (fmtHM : Nat → String) (old_messages : List InMessage) : String × Nat :=
  if old_messages.isEmpty then ("No messages to consolidate", 0)
  else
    consolidationLoop provider toolExec 10
      (initialMessages memoryDir today parseTs fmtHM old_messages) 0

/-! ## Helper lemmas: the collection loop takes a prefix of the match stream -/

lemma innerCollect_eq_take (k : Int) (fname : String) :
    ∀ (rs : List String) (acc : List ResultEntry), (acc.length : Int) < k →
      innerCollect k fname acc rs =
        acc ++ (rs.map (fun r => ResultEntry.mk fname r)).take (k.toNat - acc.length)
  | [], acc, _ => by simp [innerCollect]
  | r :: rs, acc, h => by
      simp only [innerCollect]
      by_cases hstop : k ≤ ((acc ++ [ResultEntry.mk fname r]).length : Int)
      · rw [if_pos hstop]
        have h1 : k.toNat - acc.length = 1 := by
          simp only [List.length_append, List.length_cons, List.length_nil] at hstop
          omega
        rw [h1]
        simp
      · rw [if_neg hstop]
        have h2 : (((acc ++ [ResultEntry.mk fname r]).length : Nat) : Int) < k := by
          simp only [List.length_append, List.length_cons, List.length_nil] at hstop ⊢
          omega
        rw [innerCollect_eq_take k fname rs _ h2]
        have h3 : k.toNat - acc.length = (k.toNat - (acc ++ [ResultEntry.mk fname r]).length) + 1 := by
          simp only [List.length_append, List.length_cons, List.length_nil] at h2 ⊢
          omega
        rw [h3]
        simp [List.take_succ_cons]

lemma outerCollect_eq_take (grepF : DirEntry → List String) (k : Int) :
    ∀ (files : List DirEntry) (acc : List ResultEntry), (acc.length : Int) < k →
      outerCollect grepF k acc files =
        acc ++ (files.flatMap (fileMatches grepF)).take (k.toNat - acc.length)
  | [], acc, _ => by simp [outerCollect]
  | f :: fs, acc, h => by
      have hin : innerCollect k f.name acc (grepF f) =
          acc ++ (fileMatches grepF f).take (k.toNat - acc.length) := by
        simpa [fileMatches] using innerCollect_eq_take k f.name (grepF f) acc h
      simp only [outerCollect, hin, List.flatMap_cons]
      by_cases hstop : k ≤ (((acc ++ (fileMatches grepF f).take (k.toNat - acc.length)).length : Nat) : Int)
      · rw [if_pos hstop]
        have hle : k.toNat - acc.length ≤ (fileMatches grepF f).length := by
          by_contra hc
          push_neg at hc
          rw [List.length_append, List.length_take,
            Nat.min_eq_right (Nat.le_of_lt hc)] at hstop
          omega
        rw [List.take_append_eq_append_take]
        have hz : k.toNat - acc.length - (fileMatches grepF f).length = 0 := by omega
        rw [hz]
        simp
      · rw [if_neg hstop]
        have hfm : (fileMatches grepF f).take (k.toNat - acc.length) = fileMatches grepF f := by
          apply List.take_of_length_le
          by_contra hc
          push_neg at hc
          rw [List.length_append, List.length_take,
            Nat.min_eq_left (Nat.le_of_lt hc)] at hstop
          omega
        rw [hfm] at hstop
        have h2 : (((acc ++ fileMatches grepF f).length : Nat) : Int) < k := by omega
        rw [hfm, outerCollect_eq_take grepF k fs _ h2, List.take_append_eq_append_take, hfm]
        have hidx : k.toNat - acc.length - (fileMatches grepF f).length =
            k.toNat - (acc ++ fileMatches grepF f).length := by
          rw [List.length_append]
          omega
        rw [hidx, List.append_assoc]

/-- With no keywords and no regex patterns the pattern set is empty and a
grep returns nothing. -/
lemma MemoryStore.grep_file_no_query (compilesCI : String → Bool)
    (rsearch : String → String → Bool) (lines : List String) :
    MemoryStore.grep_file compilesCI rsearch [] [] lines = [] := by
  simp [MemoryStore.grep_file, MemoryStore.buildPatterns]

/-- C1.  For every `max_results = k ≥ 1` and every archive state, both
`MemoryStore.search_daily_memories` and `MemorySearchTool.execute` compute
a result sequence that is exactly the first `k` elements of the full match
stream taken newest-file-first and top-to-bottom within each file, hence
of length `min k (total matches)`; scanning past the cap contributes
nothing. -/
theorem search_result_cap_law (compilesCI : String → Bool)
    (rsearch : String → String → Bool) (dir : List DirEntry)
    (keywords regex_patterns : List String) (k : Int) (hk : 1 ≤ k) :
    MemoryStore.searchResults compilesCI rsearch dir keywords regex_patterns k =
      (MemoryStore.allMatches compilesCI rsearch dir keywords regex_patterns).take k.toNat ∧
    (MemoryStore.searchResults compilesCI rsearch dir keywords regex_patterns k).length =
      min k.toNat (MemoryStore.allMatches compilesCI rsearch dir keywords regex_patterns).length ∧
    MemorySearchTool.executeResults compilesCI rsearch dir keywords regex_patterns k =
      (MemorySearchTool.allMatches compilesCI rsearch dir keywords regex_patterns).take k.toNat ∧
    (MemorySearchTool.executeResults compilesCI rsearch dir keywords regex_patterns k).length =
      min k.toNat (MemorySearchTool.allMatches compilesCI rsearch dir keywords regex_patterns).length := by
  have hz : ((([] : List ResultEntry).length : Nat) : Int) < k := by
    simp
    omega
  have hstore : MemoryStore.searchResults compilesCI rsearch dir keywords regex_patterns k =
      (MemoryStore.allMatches compilesCI rsearch dir keywords regex_patterns).take k.toNat := by
    by_cases hq : keywords.isEmpty && regex_patterns.isEmpty
    · obtain ⟨hk1, hk2⟩ := Bool.and_eq_true_iff.mp hq
      rw [List.isEmpty_iff] at hk1 hk2
      subst hk1 hk2
      have hall : MemoryStore.allMatches compilesCI rsearch dir [] [] = [] := by
        rw [MemoryStore.allMatches, List.flatMap_eq_nil_iff]
        intro f _
        simp [fileMatches, MemoryStore.grep_file_no_query]
      rw [hall]
      simp [MemoryStore.searchResults]
    · rw [MemoryStore.searchResults, if_neg (by simpa using hq),
        outerCollect_eq_take _ _ _ _ hz]
      simp [MemoryStore.allMatches]
  have htool : MemorySearchTool.executeResults compilesCI rsearch dir keywords regex_patterns k =
      (MemorySearchTool.allMatches compilesCI rsearch dir keywords regex_patterns).take k.toNat := by
    rw [MemorySearchTool.executeResults, outerCollect_eq_take _ _ _ _ hz]
    simp [MemorySearchTool.allMatches]
  refine ⟨hstore, ?_, htool, ?_⟩
  · rw [hstore, List.length_take]
  · rw [htool, List.length_take]

/-- C1 witness: the cap law evaluated on a concrete two-file archive with
three total matches and `max_results = 2`. -/
theorem search_result_cap_law_witness :
    1 ≤ (2 : Int) ∧
    (MemoryStore.searchResults (fun _ => true) (fun _ _ => false)
        [⟨"2024-01-01.md", true, ["x"]⟩, ⟨"2024-01-02.md", true, ["x y", "x z"]⟩]
        ["x"] [] 2 =
      (MemoryStore.allMatches (fun _ => true) (fun _ _ => false)
        [⟨"2024-01-01.md", true, ["x"]⟩, ⟨"2024-01-02.md", true, ["x y", "x z"]⟩]
        ["x"] []).take (2 : Int).toNat ∧
    (MemoryStore.searchResults (fun _ => true) (fun _ _ => false)
        [⟨"2024-01-01.md", true, ["x"]⟩, ⟨"2024-01-02.md", true, ["x y", "x z"]⟩]
        ["x"] [] 2).length =
      min (2 : Int).toNat (MemoryStore.allMatches (fun _ => true) (fun _ _ => false)
        [⟨"2024-01-01.md", true, ["x"]⟩, ⟨"2024-01-02.md", true, ["x y", "x z"]⟩]
        ["x"] []).length ∧
    MemorySearchTool.executeResults (fun _ => true) (fun _ _ => false)
        [⟨"2024-01-01.md", true, ["x"]⟩, ⟨"2024-01-02.md", true, ["x y", "x z"]⟩]
        ["x"] [] 2 =
      (MemorySearchTool.allMatches (fun _ => true) (fun _ _ => false)
        [⟨"2024-01-01.md", true, ["x"]⟩, ⟨"2024-01-02.md", true, ["x y", "x z"]⟩]
        ["x"] []).take (2 : Int).toNat ∧
    (MemorySearchTool.executeResults (fun _ => true) (fun _ _ => false)
        [⟨"2024-01-01.md", true, ["x"]⟩, ⟨"2024-01-02.md", true, ["x y", "x z"]⟩]
        ["x"] [] 2).length =
      min (2 : Int).toNat (MemorySearchTool.allMatches (fun _ => true) (fun _ _ => false)
        [⟨"2024-01-01.md", true, ["x"]⟩, ⟨"2024-01-02.md", true, ["x y", "x z"]⟩]
        ["x"] []).length) :=
  ⟨by decide,
   search_result_cap_law (fun _ => true) (fun _ _ => false)
     [⟨"2024-01-01.md", true, ["x"]⟩, ⟨"2024-01-02.md", true, ["x y", "x z"]⟩]
     ["x"] [] 2 (by decide)⟩

/-! ## C3: the regex safety validator -/

/-- C3 counterexample: `"((b)+)+"` contains the dangerous shape `(X+)+`
(with inner content `X = "(b)"`), is far below the length ceiling and
compiles under `re.IGNORECASE` (the oracle is instantiated accordingly),
yet `_validate_regex` ACCEPTS it: the `[^)]*` in the five detectors cannot
cross the inner `')'`, so the claim "returns False for every pattern
containing any of the five dangerous shapes" is false as stated. -/
theorem validate_regex_nested_group_cex :
    specNestedShape '+' '+' "((b)+)+".data = true ∧
    validate_regex (fun _ => true) "((b)+)+" = true := by decide

/-- C3 amended: `_validate_regex` returns `false` for every pattern longer
than 500 characters regardless of shape, for every pattern on which one of
the five danger detectors fires (the detectors constrain the group
interior to `')'`-free text — strictly narrower than arbitrary inner
content), and for every pattern that fails case-insensitive compilation;
it is a total Boolean function, so no exception escapes to the caller. -/
theorem validate_regex_rejections (compilesCI : String → Bool) (p : String) :
    (p.length > 500 → validate_regex compilesCI p = false) ∧
    (hasNestedQuant '+' '+' p.data = true → validate_regex compilesCI p = false) ∧
    (hasNestedQuant '*' '*' p.data = true → validate_regex compilesCI p = false) ∧
    (hasNestedQuant '*' '+' p.data = true → validate_regex compilesCI p = false) ∧
    (hasNestedQuant '+' '*' p.data = true → validate_regex compilesCI p = false) ∧
    (hasLargeRepetition p.data = true → validate_regex compilesCI p = false) ∧
    (compilesCI p = false → validate_regex compilesCI p = false) := by
  unfold validate_regex
  refine ⟨?_, ?_, ?_, ?_, ?_, ?_, ?_⟩ <;> (intro h; simp [h])

/-- C3 witness: each rejection clause of the amended theorem instantiated
at a concrete pattern exhibiting it. -/
theorem validate_regex_rejections_witness :
    ((String.mk (List.replicate 501 'a')).length > 500 ∧
      validate_regex (fun _ => true) (String.mk (List.replicate 501 'a')) = false) ∧
    (hasNestedQuant '+' '+' "(a+)+".data = true ∧
      validate_regex (fun _ => true) "(a+)+" = false) ∧
    (hasNestedQuant '*' '*' "(a*)*".data = true ∧
      validate_regex (fun _ => true) "(a*)*" = false) ∧
    (hasNestedQuant '*' '+' "(a*)+".data = true ∧
      validate_regex (fun _ => true) "(a*)+" = false) ∧
    (hasNestedQuant '+' '*' "(a+)*".data = true ∧
      validate_regex (fun _ => true) "(a+)*" = false) ∧
    (hasLargeRepetition "a\x7b123,\x7d".data = true ∧
      validate_regex (fun _ => true) "a\x7b123,\x7d" = false) ∧
    ((fun _ => false : String → Bool) "abc" = false ∧
      validate_regex (fun _ => false) "abc" = false) :=
  ⟨⟨by decide, (validate_regex_rejections (fun _ => true) _).1 (by decide)⟩,
   ⟨by decide, (validate_regex_rejections (fun _ => true) "(a+)+").2.1 (by decide)⟩,
   ⟨by decide, (validate_regex_rejections (fun _ => true) "(a*)*").2.2.1 (by decide)⟩,
   ⟨by decide, (validate_regex_rejections (fun _ => true) "(a*)+").2.2.2.1 (by decide)⟩,
   ⟨by decide, (validate_regex_rejections (fun _ => true) "(a+)*").2.2.2.2.1 (by decide)⟩,
   ⟨by decide, (validate_regex_rejections (fun _ => true) "a\x7b123,\x7d").2.2.2.2.2.1 (by decide)⟩,
   ⟨by decide, (validate_regex_rejections (fun _ => false) "abc").2.2.2.2.2.2 (by decide)⟩⟩

/-! ## C2 and C10: comparing the two grep implementations -/

/-- C2 counterexample: with the single regex pattern `"(a+)+"` — which
compiles under `re.IGNORECASE` but is rejected by the safety validator,
the behaviour the oracles encode — and the file line `"aaa"`, the store
grep uses the pattern and returns the line while the tool grep silently
drops it and returns nothing.  The two search algorithms are not
identical, and `MemoryStore._grep_file` never consults the validator. -/
theorem grep_validator_divergence_cex :
    MemoryStore.grep_file (fun p => p == "(a+)+")
        (fun p l => p == "(a+)+" && l == "aaa") [] ["(a+)+"] ["aaa"] = ["aaa"] ∧
    MemorySearchTool.grep_file (fun p => p == "(a+)+")
        (fun p l => p == "(a+)+" && l == "aaa") [] ["(a+)+"] ["aaa"] = [] := by
  decide

/-- C2 amended: the two `_grep_file`s share the same line-scan loop and
keyword handling, so they coincide on keyword-only queries; for regex
patterns, `MemorySearchTool` keeps exactly the validator-approved ones
while `MemoryStore` keeps exactly the compilable ones (no safety
validation), so they also coincide whenever compilability and validator
approval agree on every supplied pattern. -/
theorem grep_agreement (compilesCI : String → Bool)
    (rsearch : String → String → Bool) (keywords regex_patterns lines : List String) :
    MemoryStore.grep_file compilesCI rsearch keywords [] lines =
      MemorySearchTool.grep_file compilesCI rsearch keywords [] lines ∧
    ((∀ p ∈ regex_patterns, compilesCI p = validate_regex compilesCI p) →
      MemoryStore.grep_file compilesCI rsearch keywords regex_patterns lines =
        MemorySearchTool.grep_file compilesCI rsearch keywords regex_patterns lines) := by
  constructor
  · simp [MemoryStore.grep_file, MemorySearchTool.grep_file,
      MemoryStore.buildPatterns, MemorySearchTool.buildPatterns]
  · intro h
    have hf : regex_patterns.filter compilesCI =
        regex_patterns.filter (fun p => validate_regex compilesCI p) :=
      List.filter_congr h
    simp only [MemoryStore.grep_file, MemorySearchTool.grep_file,
      MemoryStore.buildPatterns, MemorySearchTool.buildPatterns, hf]

/-- C2 witness: the conditional agreement applied to a concrete query
whose regex pattern is both compilable and validator-approved. -/
theorem grep_agreement_witness :
    (∀ p ∈ ["xyz"], (fun _ => true : String → Bool) p =
      validate_regex (fun _ => true) p) ∧
    MemoryStore.grep_file (fun _ => true) (fun _ _ => true) ["hello"] ["xyz"]
        ["hello there", "nothing"] =
      MemorySearchTool.grep_file (fun _ => true) (fun _ _ => true) ["hello"] ["xyz"]
        ["hello there", "nothing"] :=
  ⟨by decide,
   (grep_agreement (fun _ => true) (fun _ _ => true) ["hello"] ["xyz"]
      ["hello there", "nothing"]).2 (by decide)⟩

/-- A validator-approved pattern compiles: the validator's own final step
is the same case-insensitive compilation. -/
lemma validate_regex_implies_compiles (compilesCI : String → Bool) (p : String)
    (h : validate_regex compilesCI p = true) : compilesCI p = true := by
  unfold validate_regex at h
  split_ifs at h
  exact h

/-- C10: on any readable file, for any keywords and any regex patterns
all of which pass the safety validator (hence also compile), the two
`_grep_file` implementations return the same ordered list of
right-trimmed matching lines, each line recorded at most once via its
first matching pattern in registration order (keywords first, then regex
patterns). -/
theorem grep_equivalence_validated (compilesCI : String → Bool)
    (rsearch : String → String → Bool) (keywords regex_patterns lines : List String)
    (h : ∀ p ∈ regex_patterns, validate_regex compilesCI p = true) :
    MemoryStore.grep_file compilesCI rsearch keywords regex_patterns lines =
      MemorySearchTool.grep_file compilesCI rsearch keywords regex_patterns lines := by
  have h1 : regex_patterns.filter (fun p => validate_regex compilesCI p) = regex_patterns :=
    List.filter_eq_self.mpr h
  have h2 : regex_patterns.filter compilesCI = regex_patterns :=
    List.filter_eq_self.mpr (fun p hp => validate_regex_implies_compiles compilesCI p (h p hp))
  simp only [MemoryStore.grep_file, MemorySearchTool.grep_file,
    MemoryStore.buildPatterns, MemorySearchTool.buildPatterns, h1, h2]

/-- C10 witness: the equivalence applied to a concrete readable file with
one keyword and one validator-approved regex pattern. -/
theorem grep_equivalence_validated_witness :
    (∀ p ∈ ["note"], validate_regex (fun _ => true) p = true) ∧
    MemoryStore.grep_file (fun _ => true) (fun p l => p == "note" && l == "a note  ")
        ["cat"] ["note"] ["a note  ", "a Cat", "dog"] =
      MemorySearchTool.grep_file (fun _ => true) (fun p l => p == "note" && l == "a note  ")
        ["cat"] ["note"] ["a note  ", "a Cat", "dog"] :=
  ⟨by decide,
   grep_equivalence_validated (fun _ => true) (fun p l => p == "note" && l == "a note  ")
     ["cat"] ["note"] ["a note  ", "a Cat", "dog"] (by decide)⟩

/-! ## C4: literal keyword matches are exactly whole-word occurrences -/

/-- `scanLines` finds something iff some line satisfies some pattern. -/
lemma scanLines_ne_nil_iff (rsearch : String → String → Bool)
    (patterns : List Pat) (lines : List String) :
    scanLines rsearch patterns lines ≠ [] ↔
      ∃ line ∈ lines, patterns.any (fun p => p.matchesLine rsearch line) = true := by
  rw [scanLines, Ne, List.filterMap_eq_nil_iff]
  push_neg
  constructor
  · rintro ⟨line, hline, hne⟩
    refine ⟨line, hline, ?_⟩
    by_contra hc
    rw [Bool.not_eq_true] at hc
    exact hne (by simp [hc])
  · rintro ⟨line, hline, hany⟩
    exact ⟨line, hline, by simp [hany]⟩

/-- The tool grep on a keyword-only query finds something iff some keyword
occurs as a whole word (case-insensitively) in some line. -/
lemma grep_file_kw_ne_nil_iff (compilesCI : String → Bool)
    (rsearch : String → String → Bool) (keywords : List String) (lines : List String) :
    MemorySearchTool.grep_file compilesCI rsearch keywords [] lines ≠ [] ↔
      ∃ line ∈ lines, ∃ kw ∈ keywords, wholeWordMatch kw line = true := by
  rcases keywords with _ | ⟨kw0, kws⟩
  · simp [MemorySearchTool.grep_file, MemorySearchTool.buildPatterns, scanLines]
  · rw [MemorySearchTool.grep_file]
    have hpat : (MemorySearchTool.buildPatterns compilesCI (kw0 :: kws) []).isEmpty = false := by
      simp [MemorySearchTool.buildPatterns]
    simp only [hpat, Bool.false_eq_true, if_false]
    rw [scanLines_ne_nil_iff]
    constructor
    · rintro ⟨line, hline, hany⟩
      rw [List.any_eq_true] at hany
      obtain ⟨p, hp, hmatch⟩ := hany
      rw [MemorySearchTool.buildPatterns] at hp
      simp only [List.filter_nil, List.map_nil, List.append_nil, List.mem_map] at hp
      obtain ⟨kw, hkw, rfl⟩ := hp
      exact ⟨line, hline, kw, hkw, hmatch⟩
    · rintro ⟨line, hline, kw, hkw, hmatch⟩
      refine ⟨line, hline, ?_⟩
      rw [List.any_eq_true]
      refine ⟨Pat.kw kw, ?_, hmatch⟩
      rw [MemorySearchTool.buildPatterns]
      simp only [List.filter_nil, List.map_nil, List.append_nil, List.mem_map]
      exact ⟨kw, hkw, rfl⟩

/-- C4: for a keyword-only query (any non-empty keyword list, any
`max_results ≥ 1`), the search finds at least one literal match iff some
keyword occurs as a whole word, case-insensitively, in some line of some
recognized daily file — keywords being regex-escaped and `\b`-anchored
before matching (`wholeWordMatch` is exactly that semantics).  The
equivalence also holds (vacuously on the right) for an empty keyword
list. -/
theorem keyword_whole_word_iff (compilesCI : String → Bool)
    (rsearch : String → String → Bool) (dir : List DirEntry)
    (keywords : List String) (k : Int) (hk : 1 ≤ k) :
    MemorySearchTool.executeResults compilesCI rsearch dir keywords [] k ≠ [] ↔
      ∃ kw ∈ keywords, ∃ f ∈ MemorySearchTool.get_daily_memory_files dir,
        ∃ line ∈ f.lines, wholeWordMatch kw line = true := by
  have hz : ((([] : List ResultEntry).length : Nat) : Int) < k := by
    simp
    omega
  rw [MemorySearchTool.executeResults, outerCollect_eq_take _ _ _ _ hz]
  simp only [List.nil_append, List.length_nil, Nat.sub_zero]
  rw [Ne, List.take_eq_nil_iff]
  push_neg
  have hk0 : k.toNat ≠ 0 := by omega
  rw [and_iff_right hk0, Ne, List.flatMap_eq_nil_iff]
  push_neg
  constructor
  · rintro ⟨f, hf, hfm⟩
    have hg : MemorySearchTool.grep_file compilesCI rsearch keywords [] f.lines ≠ [] := by
      intro hgn
      exact hfm (by simp [fileMatches, hgn])
    obtain ⟨line, hline, kw, hkw, hmatch⟩ :=
      (grep_file_kw_ne_nil_iff compilesCI rsearch keywords f.lines).mp hg
    exact ⟨kw, hkw, f, hf, line, hline, hmatch⟩
  · rintro ⟨kw, hkw, f, hf, line, hline, hmatch⟩
    refine ⟨f, hf, ?_⟩
    have hg : MemorySearchTool.grep_file compilesCI rsearch keywords [] f.lines ≠ [] :=
      (grep_file_kw_ne_nil_iff compilesCI rsearch keywords f.lines).mpr
        ⟨line, hline, kw, hkw, hmatch⟩
    simp [fileMatches, hg]

/-- C4 witness: the equivalence applied to a concrete archive in which the
keyword `"cat"` occurs (as the whole word `"Cat"`) in a recognized daily
file. -/
theorem keyword_whole_word_iff_witness :
    1 ≤ (10 : Int) ∧
    (MemorySearchTool.executeResults (fun _ => true) (fun _ _ => false)
        [⟨"2025-03-03.md", true, ["a Cat!", "dog"]⟩] ["cat"] [] 10 ≠ [] ↔
      ∃ kw ∈ ["cat"], ∃ f ∈ MemorySearchTool.get_daily_memory_files
          [⟨"2025-03-03.md", true, ["a Cat!", "dog"]⟩],
        ∃ line ∈ f.lines, wholeWordMatch kw line = true) :=
  ⟨by decide,
   keyword_whole_word_iff (fun _ => true) (fun _ _ => false)
     [⟨"2025-03-03.md", true, ["a Cat!", "dog"]⟩] ["cat"] 10 (by decide)⟩

/-! ## C5: `max_results` is not actually clamped by `execute` -/

/-- C5 counterexample: `execute` applies no clamping.  (1) With a single
daily file of 51 matching lines and a supplied `max_results = 51`, the
tool returns 51 > 50 results.  (2) A supplied value below 1 does not
behave as 1 either: with the newest file matchless and an older file
matching, `max_results = 0` returns nothing (the post-file cap check
breaks out immediately) while `max_results = 1` returns one result. -/
theorem execute_no_clamp_cex :
    (MemorySearchTool.executeResults (fun _ => true) (fun _ _ => false)
        [⟨"2025-05-05.md", true, List.replicate 51 "x"⟩] ["x"] [] 51).length = 51 ∧
    MemorySearchTool.executeResults (fun _ => true) (fun _ _ => false)
        [⟨"2025-01-01.md", true, ["x"]⟩, ⟨"2025-01-02.md", true, ["y"]⟩]
        ["x"] [] 0 = [] ∧
    MemorySearchTool.executeResults (fun _ => true) (fun _ _ => false)
        [⟨"2025-01-01.md", true, ["x"]⟩, ⟨"2025-01-02.md", true, ["y"]⟩]
        ["x"] [] 1 = [⟨"2025-01-01.md", "x"⟩] := by
  decide

/-- C5 amended: the `[1, 50]` range and the default 10 exist only in the
tool's declared parameter schema; `execute` itself uses the supplied value
unclamped.  For `max_results = k ≥ 1` it returns `min k (total matches)`
results (so more than 50 when `k > 50` and enough matches exist); for
`k ≤ 0` it returns at most one result, drawn from the newest enumerated
file only (none if that file has no matches, because the cap check after
the first file already fires). -/
theorem execute_max_results_behavior (compilesCI : String → Bool)
    (rsearch : String → String → Bool) (dir : List DirEntry)
    (keywords regex_patterns : List String) (k : Int) :
    (1 ≤ k → (MemorySearchTool.executeResults compilesCI rsearch dir
        keywords regex_patterns k).length =
      min k.toNat (MemorySearchTool.allMatches compilesCI rsearch dir
        keywords regex_patterns).length) ∧
    (k ≤ 0 → MemorySearchTool.executeResults compilesCI rsearch dir
        keywords regex_patterns k =
      ((MemorySearchTool.get_daily_memory_files dir).head?.elim []
        (fun f => (fileMatches (fun g =>
          MemorySearchTool.grep_file compilesCI rsearch keywords regex_patterns g.lines) f).take 1))) := by
  constructor
  · intro hk
    have hz : ((([] : List ResultEntry).length : Nat) : Int) < k := by
      simp
      omega
    rw [MemorySearchTool.executeResults, outerCollect_eq_take _ _ _ _ hz]
    simp [MemorySearchTool.allMatches, List.length_take]
  · intro hk
    rcases hfiles : MemorySearchTool.get_daily_memory_files dir with _ | ⟨f, fs⟩
    · simp [MemorySearchTool.executeResults, hfiles, outerCollect]
    · rw [MemorySearchTool.executeResults, hfiles]
      rcases hg : MemorySearchTool.grep_file compilesCI rsearch keywords regex_patterns f.lines
        with _ | ⟨r, rs⟩
      · simp only [outerCollect, hg, innerCollect]
        rw [if_pos (by simp; omega)]
        simp [fileMatches, hg]
      · simp only [outerCollect, hg, innerCollect, List.nil_append]
        rw [if_pos (by simp; omega), if_pos (by simp; omega)]
        simp [fileMatches, hg]

/-- C5 witness: both behaviours of the amended theorem at concrete inputs
(`k = 51` with 51 matches, and `k = 0` with a matchless newest file). -/
theorem execute_max_results_behavior_witness :
    (1 ≤ (51 : Int) ∧
      (MemorySearchTool.executeResults (fun _ => true) (fun _ _ => false)
          [⟨"2025-05-05.md", true, List.replicate 51 "x"⟩] ["x"] [] 51).length =
        min (51 : Int).toNat (MemorySearchTool.allMatches (fun _ => true) (fun _ _ => false)
          [⟨"2025-05-05.md", true, List.replicate 51 "x"⟩] ["x"] []).length) ∧
    ((0 : Int) ≤ 0 ∧
      MemorySearchTool.executeResults (fun _ => true) (fun _ _ => false)
          [⟨"2025-01-01.md", true, ["x"]⟩, ⟨"2025-01-02.md", true, ["y"]⟩] ["x"] [] 0 =
        ((MemorySearchTool.get_daily_memory_files
            [⟨"2025-01-01.md", true, ["x"]⟩, ⟨"2025-01-02.md", true, ["y"]⟩]).head?.elim []
          (fun f => (fileMatches (fun g =>
            MemorySearchTool.grep_file (fun _ => true) (fun _ _ => false) ["x"] [] g.lines) f).take 1))) :=
  ⟨⟨by decide,
    (execute_max_results_behavior (fun _ => true) (fun _ _ => false)
      [⟨"2025-05-05.md", true, List.replicate 51 "x"⟩] ["x"] [] 51).1 (by decide)⟩,
   ⟨by decide,
    (execute_max_results_behavior (fun _ => true) (fun _ _ => false)
      [⟨"2025-01-01.md", true, ["x"]⟩, ⟨"2025-01-02.md", true, ["y"]⟩] ["x"] [] 0).2 (by decide)⟩⟩

/-! ## C6: the two degenerate paths of `execute` and the store search -/

/-- C6: with no keywords and no regex patterns (Python `None` or `[]`,
both falsy) `execute` returns exactly the error string before touching any
file, and `search_daily_memories` returns the empty string; with a query
but zero recognized daily files, `execute` returns exactly the no-files
string and `search_daily_memories` again returns the empty string.  All
four paths are plain returned values of total functions — no exception. -/
theorem execute_empty_paths (compilesCI : String → Bool)
    (rsearch : String → String → Bool) (dir : List DirEntry)
    (keywords regex_patterns : List String) (k : Int) :
    ((keywords.isEmpty && regex_patterns.isEmpty) = true →
      MemorySearchTool.execute compilesCI rsearch dir keywords regex_patterns k =
        "Error: No keywords or regex patterns provided" ∧
      MemoryStore.search_daily_memories compilesCI rsearch dir keywords regex_patterns k = "") ∧
    ((keywords.isEmpty && regex_patterns.isEmpty) = false →
      MemorySearchTool.get_daily_memory_files dir = [] →
      MemorySearchTool.execute compilesCI rsearch dir keywords regex_patterns k =
        "No historical memory files found." ∧
      MemoryStore.search_daily_memories compilesCI rsearch dir keywords regex_patterns k = "") := by
  have hsame : MemoryStore.get_daily_memory_files dir =
      MemorySearchTool.get_daily_memory_files dir := rfl
  constructor
  · intro h
    constructor
    · simp [MemorySearchTool.execute, h]
    · simp [MemoryStore.search_daily_memories, h]
  · intro h hfiles
    constructor
    · simp [MemorySearchTool.execute, h, hfiles]
    · simp [MemoryStore.search_daily_memories, h, hsame, hfiles]

/-- C6 witness: both degenerate paths at concrete inputs (an empty query
over a non-empty archive; a keyword query over a directory containing no
recognized daily file). -/
theorem execute_empty_paths_witness :
    ((([] : List String).isEmpty && ([] : List String).isEmpty) = true ∧
      MemorySearchTool.execute (fun _ => true) (fun _ _ => true)
          [⟨"2025-02-02.md", true, ["hi"]⟩] [] [] 10 =
        "Error: No keywords or regex patterns provided" ∧
      MemoryStore.search_daily_memories (fun _ => true) (fun _ _ => true)
          [⟨"2025-02-02.md", true, ["hi"]⟩] [] [] 10 = "") ∧
    ((["x"].isEmpty && ([] : List String).isEmpty) = false ∧
      MemorySearchTool.get_daily_memory_files [⟨"notes.txt", true, ["x"]⟩] = [] ∧
      MemorySearchTool.execute (fun _ => true) (fun _ _ => true)
          [⟨"notes.txt", true, ["x"]⟩] ["x"] [] 10 = "No historical memory files found." ∧
      MemoryStore.search_daily_memories (fun _ => true) (fun _ _ => true)
          [⟨"notes.txt", true, ["x"]⟩] ["x"] [] 10 = "") :=
  ⟨⟨by decide,
    (execute_empty_paths (fun _ => true) (fun _ _ => true)
      [⟨"2025-02-02.md", true, ["hi"]⟩] [] [] 10).1 (by decide)⟩,
   ⟨by decide, by decide,
    (execute_empty_paths (fun _ => true) (fun _ _ => true)
      [⟨"notes.txt", true, ["x"]⟩] ["x"] [] 10).2 (by decide) (by decide)⟩⟩

/-! ## C7 and C8: the consolidation loop -/

/-- If every tool execution succeeds, executing a list of invocations
succeeds. -/
lemma execToolCalls_ok (toolExec : ToolCall → Except String String)
    (ht : ∀ tc, ∃ s, toolExec tc = .ok s) :
    ∀ (tcs : List ToolCall) (msgs : List ChatMessage),
      ∃ msgs2, execToolCalls toolExec msgs tcs = .ok msgs2
  | [], msgs => ⟨msgs, rfl⟩
  | tc :: rest, msgs => by
      obtain ⟨s, hs⟩ := ht tc
      obtain ⟨msgs2, hm⟩ := execToolCalls_ok toolExec ht rest (msgs ++ [toolResultMessage tc s])
      exact ⟨msgs2, by simp [execToolCalls, hs, hm]⟩

/-- Every run of the loop ends in one of the three loop-terminal strings. -/
lemma consolidationLoop_shapes (provider : List ChatMessage → Except String ProviderResponse)
    (toolExec : ToolCall → Except String String) :
    ∀ (fuel : Nat) (msgs : List ChatMessage) (calls : Nat),
      (consolidationLoop provider toolExec fuel msgs calls).1 =
          "Memory consolidation completed" ∨
      (consolidationLoop provider toolExec fuel msgs calls).1 =
          "Memory consolidation completed (max iterations reached)" ∨
      ∃ r, (consolidationLoop provider toolExec fuel msgs calls).1 =
          "Memory consolidation failed: " ++ r
  | 0, msgs, calls => by simp [consolidationLoop]
  | fuel + 1, msgs, calls => by
      rw [consolidationLoop]
      rcases hp : provider msgs with e | resp
      · exact Or.inr (Or.inr ⟨e, rfl⟩)
      · by_cases he : resp.tool_calls.isEmpty
        · simp [he]
        · simp only [he, Bool.false_eq_true, if_false]
          rcases hex : execToolCalls toolExec (msgs ++ [assistantMessage resp]) resp.tool_calls
            with e | msgs2
          · exact Or.inr (Or.inr ⟨e, rfl⟩)
          · exact consolidationLoop_shapes provider toolExec fuel msgs2 (calls + 1)

/-- C7: `consolidate` always returns a descriptive string and never
propagates an exception (it is a total function of its `Except`-valued
collaborators): on an empty batch it returns exactly
`"No messages to consolidate"` with zero provider calls; a raised
exception — e.g. on the very first provider call — is caught and
converted to `"Memory consolidation failed: <reason>"`; and every run
ends in one of the four descriptive strings. -/
theorem consolidate_never_raises
    (provider : List ChatMessage → Except String ProviderResponse)
    (toolExec : ToolCall → Except String String)
    (memoryDir today : String) (parseTs : String → Option Nat)
    (fmtHM : Nat → String) (batch : List InMessage) :
    (batch = [] →
      consolidate provider toolExec memoryDir today parseTs fmtHM batch =
        ("No messages to consolidate", 0)) ∧
    (batch ≠ [] → ∀ e,
      provider (initialMessages memoryDir today parseTs fmtHM batch) = .error e →
      consolidate provider toolExec memoryDir today parseTs fmtHM batch =
        ("Memory consolidation failed: " ++ e, 1)) ∧
    ((consolidate provider toolExec memoryDir today parseTs fmtHM batch).1 =
        "No messages to consolidate" ∨
     (consolidate provider toolExec memoryDir today parseTs fmtHM batch).1 =
        "Memory consolidation completed" ∨
     (consolidate provider toolExec memoryDir today parseTs fmtHM batch).1 =
        "Memory consolidation completed (max iterations reached)" ∨
     ∃ r, (consolidate provider toolExec memoryDir today parseTs fmtHM batch).1 =
        "Memory consolidation failed: " ++ r) := by
  refine ⟨?_, ?_, ?_⟩
  · intro h
    simp [consolidate, h]
  · intro h e hp
    rw [consolidate, if_neg (by simp [h])]
    rw [show (10 : Nat) = 9 + 1 from rfl, consolidationLoop, hp]
  · by_cases hb : batch.isEmpty
    · rw [consolidate, if_pos hb]
      exact Or.inl rfl
    · rw [consolidate, if_neg hb]
      rcases consolidationLoop_shapes provider toolExec 10
          (initialMessages memoryDir today parseTs fmtHM batch) 0 with h | h | ⟨r, h⟩
      · exact Or.inr (Or.inl h)
      · exact Or.inr (Or.inr (Or.inl h))
      · exact Or.inr (Or.inr (Or.inr ⟨r, h⟩))

/-- C7 witness: an empty batch, and a one-message batch whose provider
raises on the first call. -/
theorem consolidate_never_raises_witness :
    consolidate (fun _ => .error "boom") (fun _ => .ok "ok") "mem" "2025-01-01"
        (fun _ => none) (fun _ => "") [] = ("No messages to consolidate", 0) ∧
    (([⟨"user", "hi", none⟩] : List InMessage) ≠ [] ∧
      consolidate (fun _ => .error "boom") (fun _ => .ok "ok") "mem" "2025-01-01"
          (fun _ => none) (fun _ => "")
          [⟨"user", "hi", none⟩] = ("Memory consolidation failed: " ++ "boom", 1)) :=
  ⟨(consolidate_never_raises (fun _ => .error "boom") (fun _ => .ok "ok") "mem"
      "2025-01-01" (fun _ => none) (fun _ => "") []).1 rfl,
   by decide,
   (consolidate_never_raises (fun _ => .error "boom") (fun _ => .ok "ok") "mem"
      "2025-01-01" (fun _ => none) (fun _ => "") [⟨"user", "hi", none⟩]).2.1
     (by decide) "boom" rfl⟩

/-- A provider that always returns tool invocations (with all tool
executions succeeding) drives the loop through its whole fuel, one
provider call per iteration. -/
lemma consolidationLoop_all_tools
    (provider : List ChatMessage → Except String ProviderResponse)
    (toolExec : ToolCall → Except String String)
    (hp : ∀ msgs, ∃ resp, provider msgs = .ok resp ∧ resp.tool_calls ≠ [])
    (ht : ∀ tc, ∃ s, toolExec tc = .ok s) :
    ∀ (fuel : Nat) (msgs : List ChatMessage) (calls : Nat),
      consolidationLoop provider toolExec fuel msgs calls =
        ("Memory consolidation completed (max iterations reached)", calls + fuel)
  | 0, msgs, calls => by simp [consolidationLoop]
  | fuel + 1, msgs, calls => by
      obtain ⟨resp, hpm, hne⟩ := hp msgs
      obtain ⟨msgs2, hm⟩ :=
        execToolCalls_ok toolExec ht resp.tool_calls (msgs ++ [assistantMessage resp])
      rw [consolidationLoop, hpm]
      simp only [List.isEmpty_eq_true, hne, if_false, hm]
      rw [consolidationLoop_all_tools provider toolExec hp ht fuel msgs2 (calls + 1)]
      have h : calls + 1 + fuel = calls + (fuel + 1) := by omega
      rw [h]

/-- C8: the loop is bounded at 10 iterations: a provider that returns
tool invocations on every call (all tool executions succeeding) causes
exactly 10 provider calls and the max-iterations message; a provider that
returns no tool invocations on the first call causes exactly 1 provider
call and the success message. -/
theorem consolidate_iteration_bound
    (provider : List ChatMessage → Except String ProviderResponse)
    (toolExec : ToolCall → Except String String)
    (memoryDir today : String) (parseTs : String → Option Nat)
    (fmtHM : Nat → String) (batch : List InMessage) (hb : batch ≠ []) :
    ((∀ msgs, ∃ resp, provider msgs = .ok resp ∧ resp.tool_calls ≠ []) →
      (∀ tc, ∃ s, toolExec tc = .ok s) →
      consolidate provider toolExec memoryDir today parseTs fmtHM batch =
        ("Memory consolidation completed (max iterations reached)", 10)) ∧
    (∀ resp, provider (initialMessages memoryDir today parseTs fmtHM batch) = .ok resp →
      resp.tool_calls = [] →
      consolidate provider toolExec memoryDir today parseTs fmtHM batch =
        ("Memory consolidation completed", 1)) := by
  constructor
  · intro hp ht
    rw [consolidate, if_neg (by simp [hb])]
    rw [consolidationLoop_all_tools provider toolExec hp ht 10 _ 0]
  · intro resp hpm hempty
    rw [consolidate, if_neg (by simp [hb])]
    rw [show (10 : Nat) = 9 + 1 from rfl, consolidationLoop, hpm]
    simp [hempty]

/-- C8 witness: a provider that always demands one tool call makes
exactly 10 calls; a provider that immediately answers makes exactly 1. -/
theorem consolidate_iteration_bound_witness :
    ([⟨"user", "hi", none⟩] : List InMessage) ≠ [] ∧
    consolidate (fun _ => .ok ⟨none, [⟨"1", "read_file", "args"⟩]⟩) (fun _ => .ok "ok")
        "mem" "2025-01-01" (fun _ => none) (fun _ => "") [⟨"user", "hi", none⟩] =
      ("Memory consolidation completed (max iterations reached)", 10) ∧
    consolidate (fun _ => .ok ⟨some "done", []⟩) (fun _ => .ok "ok")
        "mem" "2025-01-01" (fun _ => none) (fun _ => "") [⟨"user", "hi", none⟩] =
      ("Memory consolidation completed", 1) :=
  ⟨by decide,
   (consolidate_iteration_bound (fun _ => .ok ⟨none, [⟨"1", "read_file", "args"⟩]⟩)
      (fun _ => .ok "ok") "mem" "2025-01-01" (fun _ => none) (fun _ => "")
      [⟨"user", "hi", none⟩] (by decide)).1
     (fun msgs => ⟨⟨none, [⟨"1", "read_file", "args"⟩]⟩, rfl, by decide⟩)
     (fun tc => ⟨"ok", rfl⟩),
   (consolidate_iteration_bound (fun _ => .ok ⟨some "done", []⟩)
      (fun _ => .ok "ok") "mem" "2025-01-01" (fun _ => none) (fun _ => "")
      [⟨"user", "hi", none⟩] (by decide)).2 ⟨some "done", []⟩ rfl rfl⟩

/-! ## C9: properties of the enumeration order -/

/-- Characters with equal code points are equal. -/
lemma charEq_of_toNat_eq (a b : Char) (h : a.toNat = b.toNat) : a = b := by
  apply Char.ext
  exact UInt32.toNat.inj h

lemma lexLt_irrefl : ∀ (a : List Char), lexLt a a = false
  | [] => rfl
  | c :: cs => by
      simp only [lexLt, Bool.or_eq_false_iff, Bool.and_eq_false_iff]
      refine ⟨?_, Or.inr (lexLt_irrefl cs)⟩
      rw [Bool.eq_false_iff, Ne, Nat.blt_eq]
      omega

lemma lexLt_trans : ∀ (a b c : List Char),
    lexLt a b = true → lexLt b c = true → lexLt a c = true
  | [], [], _, h1, _ => by simp [lexLt] at h1
  | [], _ :: _, [], _, h2 => by simp [lexLt] at h2
  | [], _ :: _, _ :: _, _, _ => by simp [lexLt]
  | _ :: _, [], _, h1, _ => by simp [lexLt] at h1
  | _ :: _, _ :: _, [], _, h2 => by simp [lexLt] at h2
  | x :: xs, y :: ys, z :: zs, h1, h2 => by
      simp only [lexLt, Bool.or_eq_true, Bool.and_eq_true, Nat.blt_eq,
        beq_iff_eq] at h1 h2 ⊢
      rcases h1 with h1 | ⟨he1, h1⟩
      · rcases h2 with h2 | ⟨he2, h2⟩
        · exact Or.inl (by omega)
        · exact Or.inl (by omega)
      · rcases h2 with h2 | ⟨he2, h2⟩
        · exact Or.inl (by omega)
        · exact Or.inr ⟨by omega, lexLt_trans xs ys zs h1 h2⟩

lemma lexLt_connex : ∀ (a b : List Char),
    lexLt a b = false → lexLt b a = false → a = b
  | [], [], _, _ => rfl
  | [], _ :: _, h1, _ => by simp [lexLt] at h1
  | _ :: _, [], _, h2 => by simp [lexLt] at h2
  | x :: xs, y :: ys, h1, h2 => by
      simp only [lexLt, Bool.or_eq_false_iff, Bool.and_eq_false_iff] at h1 h2
      obtain ⟨hlt1, h1r⟩ := h1
      obtain ⟨hlt2, h2r⟩ := h2
      rw [Bool.eq_false_iff, Ne, Nat.blt_eq] at hlt1 hlt2
      have he : x.toNat = y.toNat := by omega
      have hx : x = y := charEq_of_toNat_eq x y he
      subst hx
      rcases h1r with h1r | h1r
      · exact absurd h1r (by simp)
      · rcases h2r with h2r | h2r
        · exact absurd h2r (by simp)
        · rw [lexLt_connex xs ys h1r h2r]

lemma lexLt_false_trans (a b c : List Char)
    (h1 : lexLt a b = false) (h2 : lexLt b c = false) : lexLt a c = false := by
  by_cases hba : lexLt b a = true
  · by_cases hcb : lexLt c b = true
    · by_contra hac
      rw [Bool.not_eq_false] at hac
      have h3 := lexLt_trans a c b hac hcb
      rw [h3] at h1
      simp at h1
    · have hbc : b = c := lexLt_connex b c h2 (by simpa using hcb)
      subst hbc
      by_contra hac
      rw [Bool.not_eq_false] at hac
      have h3 := lexLt_trans b a b hba hac
      rw [lexLt_irrefl b] at h3
      simp at h3
  · have hab : a = b := lexLt_connex a b h1 (by simpa using hba)
    subst hab
    exact h2

/-- The descending-name relation maintained by the sort: `a`'s filename is
not lexicographically below `b`'s. -/
def nameGe (a b : DirEntry) : Prop := lexLt a.name.data b.name.data = false

lemma mem_insertByNameDesc : ∀ (e x : DirEntry) (l : List DirEntry),
    x ∈ insertByNameDesc e l ↔ x = e ∨ x ∈ l
  | e, x, [] => by simp [insertByNameDesc]
  | e, x, y :: ys => by
      rw [insertByNameDesc]
      by_cases h : lexLt e.name.data y.name.data = true
      · rw [if_pos h]
        simp only [List.mem_cons, mem_insertByNameDesc e x ys]
        tauto
      · rw [if_neg h]
        simp only [List.mem_cons]

lemma mem_sortByNameDesc : ∀ (x : DirEntry) (l : List DirEntry),
    x ∈ sortByNameDesc l ↔ x ∈ l
  | x, [] => by simp [sortByNameDesc]
  | x, y :: ys => by
      rw [sortByNameDesc, mem_insertByNameDesc]
      simp only [List.mem_cons, mem_sortByNameDesc x ys]

lemma lexLt_asymm (a b : List Char) (h : lexLt a b = true) : lexLt b a = false := by
  by_contra hc
  rw [Bool.not_eq_false] at hc
  have h3 := lexLt_trans a b a h hc
  rw [lexLt_irrefl a] at h3
  simp at h3

lemma pairwise_insertByNameDesc : ∀ (e : DirEntry) (l : List DirEntry),
    l.Pairwise nameGe → (insertByNameDesc e l).Pairwise nameGe
  | e, [], _ => by simp [insertByNameDesc]
  | e, y :: ys, hp => by
      rw [List.pairwise_cons] at hp
      obtain ⟨hy, hys⟩ := hp
      rw [insertByNameDesc]
      by_cases h : lexLt e.name.data y.name.data = true
      · rw [if_pos h]
        rw [List.pairwise_cons]
        constructor
        · intro x hx
          rcases (mem_insertByNameDesc e x ys).mp hx with rfl | hx
          · exact lexLt_asymm _ _ h
          · exact hy x hx
        · exact pairwise_insertByNameDesc e ys hys
      · rw [if_neg h]
        rw [List.pairwise_cons]
        constructor
        · intro x hx
          rcases List.mem_cons.mp hx with rfl | hx
          · exact (Bool.not_eq_true _).mp h
          · exact lexLt_false_trans _ _ _ ((Bool.not_eq_true _).mp h) (hy x hx)
        · rw [List.pairwise_cons]
          exact ⟨hy, hys⟩

lemma pairwise_sortByNameDesc : ∀ (l : List DirEntry),
    (sortByNameDesc l).Pairwise nameGe
  | [] => by simp [sortByNameDesc]
  | x :: xs => pairwise_insertByNameDesc x (sortByNameDesc xs) (pairwise_sortByNameDesc xs)

lemma isDigit_toNat_bounds (c : Char) (h : c.isDigit = true) :
    48 ≤ c.toNat ∧ c.toNat ≤ 57 := by
  simp [Char.isDigit] at h
  exact h

lemma natOfDigits_aux : ∀ (cs : List Char) (n : Nat),
    cs.foldl (fun m c => m * 10 + digitVal c) n = n * 10 ^ cs.length + natOfDigits cs
  | [], n => by simp [natOfDigits]
  | c :: cs, n => by
      have h2 : natOfDigits (c :: cs) = digitVal c * 10 ^ cs.length + natOfDigits cs := by
        rw [natOfDigits, List.foldl_cons, natOfDigits_aux cs (0 * 10 + digitVal c)]
        simp
      rw [List.foldl_cons, natOfDigits_aux cs (n * 10 + digitVal c), h2]
      simp only [List.length_cons, pow_succ]
      ring

lemma natOfDigits_cons (c : Char) (cs : List Char) :
    natOfDigits (c :: cs) = digitVal c * 10 ^ cs.length + natOfDigits cs := by
  rw [natOfDigits, List.foldl_cons, natOfDigits_aux cs (0 * 10 + digitVal c)]
  simp

lemma natOfDigits_lt : ∀ (cs : List Char), (∀ c ∈ cs, c.isDigit = true) →
    natOfDigits cs < 10 ^ cs.length
  | [], _ => by simp [natOfDigits]
  | c :: cs, h => by
      have hc := isDigit_toNat_bounds c (h c (by simp))
      have hd : digitVal c ≤ 9 := by unfold digitVal; omega
      have ih := natOfDigits_lt cs (fun x hx => h x (by simp [hx]))
      rw [natOfDigits_cons]
      calc digitVal c * 10 ^ cs.length + natOfDigits cs
          < digitVal c * 10 ^ cs.length + 10 ^ cs.length := by omega
        _ = (digitVal c + 1) * 10 ^ cs.length := by ring
        _ ≤ 10 * 10 ^ cs.length := Nat.mul_le_mul_right _ (by omega)
        _ = 10 ^ (c :: cs).length := by rw [List.length_cons, pow_succ]; ring

lemma natOfDigits_msd_lt (d e : Char) (ds es : List Char)
    (hlen : ds.length = es.length) (hds : ∀ c ∈ ds, c.isDigit = true)
    (hd : d.isDigit = true) (he : e.isDigit = true)
    (h : d.toNat < e.toNat) :
    natOfDigits (d :: ds) < natOfDigits (e :: es) := by
  have hb1 := isDigit_toNat_bounds d hd
  have hb2 := isDigit_toNat_bounds e he
  have hdv : digitVal d < digitVal e := by unfold digitVal; omega
  have hlt := natOfDigits_lt ds hds
  rw [natOfDigits_cons, natOfDigits_cons, ← hlen]
  calc digitVal d * 10 ^ ds.length + natOfDigits ds
      < digitVal d * 10 ^ ds.length + 10 ^ ds.length := by omega
    _ = (digitVal d + 1) * 10 ^ ds.length := by ring
    _ ≤ digitVal e * 10 ^ ds.length := Nat.mul_le_mul_right _ (by omega)
    _ ≤ digitVal e * 10 ^ ds.length + natOfDigits es := Nat.le_add_right _ _

/-- On equal-length digit strings, lexicographic order is numeric order. -/
lemma lexLt_digits_iff : ∀ (ds es : List Char), ds.length = es.length →
    (∀ c ∈ ds, c.isDigit = true) → (∀ c ∈ es, c.isDigit = true) →
    (lexLt ds es = true ↔ natOfDigits ds < natOfDigits es)
  | [], [], _, _, _ => by simp [lexLt]
  | [], _ :: _, h, _, _ => by simp at h
  | _ :: _, [], h, _, _ => by simp at h
  | d :: ds, e :: es, hlen, hds, hes => by
      have hlen' : ds.length = es.length := by simpa using hlen
      have hd : d.isDigit = true := hds d (by simp)
      have he : e.isDigit = true := hes e (by simp)
      have hds' : ∀ c ∈ ds, c.isDigit = true := fun c hc => hds c (by simp [hc])
      have hes' : ∀ c ∈ es, c.isDigit = true := fun c hc => hes c (by simp [hc])
      constructor
      · intro hl
        simp only [lexLt, Bool.or_eq_true, Bool.and_eq_true, Nat.blt_eq,
          beq_iff_eq] at hl
        rcases hl with hl | ⟨heq, hl⟩
        · exact natOfDigits_msd_lt d e ds es hlen' hds' hd he hl
        · have hde : d = e := charEq_of_toNat_eq d e heq
          subst hde
          rw [natOfDigits_cons, natOfDigits_cons, ← hlen']
          have := (lexLt_digits_iff ds es hlen' hds' hes').mp hl
          omega
      · intro hn
        rcases Nat.lt_trichotomy d.toNat e.toNat with hc | hc | hc
        · simp only [lexLt, Bool.or_eq_true, Nat.blt_eq]
          exact Or.inl hc
        · have hde : d = e := charEq_of_toNat_eq d e hc
          subst hde
          simp only [lexLt, Bool.or_eq_true, Bool.and_eq_true, Nat.blt_eq,
            beq_iff_eq]
          right
          refine ⟨trivial, ?_⟩
          apply (lexLt_digits_iff ds es hlen' hds' hes').mpr
          rw [natOfDigits_cons, natOfDigits_cons, ← hlen'] at hn
          omega
        · exfalso
          have := natOfDigits_msd_lt e d es ds hlen'.symm hes' he hd hc
          omega

/-- A name accepted by the strict daily regex has the explicit
`YYYY-MM-DD.md` shape with digit characters in the date positions. -/
lemma dailyName_shape (s : List Char) (h : isDailyName s = true) :
    ∃ y1 y2 y3 y4 m1 m2 d1 d2 : Char,
      s = [y1, y2, y3, y4, '-', m1, m2, '-', d1, d2, '.', 'm', 'd'] ∧
      y1.isDigit = true ∧ y2.isDigit = true ∧ y3.isDigit = true ∧ y4.isDigit = true ∧
      m1.isDigit = true ∧ m2.isDigit = true ∧ d1.isDigit = true ∧ d2.isDigit = true := by
  rcases s with _ | ⟨a0, _ | ⟨a1, _ | ⟨a2, _ | ⟨a3, _ | ⟨a4, _ | ⟨a5, _ | ⟨a6, _ | ⟨a7,
    _ | ⟨a8, _ | ⟨a9, _ | ⟨a10, _ | ⟨a11, _ | ⟨a12, _ | ⟨a13, rest⟩⟩⟩⟩⟩⟩⟩⟩⟩⟩⟩⟩⟩⟩
  all_goals simp only [isDailyName, Bool.and_eq_true, decide_eq_true_eq,
    Bool.false_eq_true] at h
  obtain ⟨h1, h2, h3, h4, h5, h6, h7, h8, h9, h10, h11, h12, h13⟩ := h
  subst h5 h8 h11 h12 h13
  exact ⟨a0, a1, a2, a3, a5, a6, a8, a9, rfl, h1, h2, h3, h4, h6, h7, h9, h10⟩

/-- Stripping the fixed separators: lexicographic comparison of two
strict daily names equals lexicographic comparison of their date digits. -/
lemma lexLt_dailyNames (y1 y2 y3 y4 m1 m2 d1 d2 z1 z2 z3 z4 n1 n2 e1 e2 : Char) :
    lexLt [y1, y2, y3, y4, '-', m1, m2, '-', d1, d2, '.', 'm', 'd']
          [z1, z2, z3, z4, '-', n1, n2, '-', e1, e2, '.', 'm', 'd'] =
    lexLt [y1, y2, y3, y4, m1, m2, d1, d2] [z1, z2, z3, z4, n1, n2, e1, e2] := by
  have c1 : Nat.blt ('-'.toNat) ('-'.toNat) = false := rfl
  have c2 : (('-'.toNat : Nat) == '-'.toNat) = true := rfl
  have c3 : Nat.blt ('.'.toNat) ('.'.toNat) = false := rfl
  have c4 : (('.'.toNat : Nat) == '.'.toNat) = true := rfl
  have c5 : Nat.blt ('m'.toNat) ('m'.toNat) = false := rfl
  have c6 : (('m'.toNat : Nat) == 'm'.toNat) = true := rfl
  have c7 : Nat.blt ('d'.toNat) ('d'.toNat) = false := rfl
  have c8 : (('d'.toNat : Nat) == 'd'.toNat) = true := rfl
  simp only [lexLt, c1, c2, c3, c4, c5, c6, c7, c8, Bool.false_or, Bool.true_and,
    Bool.and_false, Bool.or_false]

/-- The digit filter of a strict daily name is its eight date digits. -/
lemma filter_dailyName (y1 y2 y3 y4 m1 m2 d1 d2 : Char)
    (h1 : y1.isDigit = true) (h2 : y2.isDigit = true) (h3 : y3.isDigit = true)
    (h4 : y4.isDigit = true) (h5 : m1.isDigit = true) (h6 : m2.isDigit = true)
    (h7 : d1.isDigit = true) (h8 : d2.isDigit = true) :
    List.filter Char.isDigit
        [y1, y2, y3, y4, '-', m1, m2, '-', d1, d2, '.', 'm', 'd'] =
      [y1, y2, y3, y4, m1, m2, d1, d2] := by
  have n1 : Char.isDigit '-' = false := rfl
  have n2 : Char.isDigit '.' = false := rfl
  have n3 : Char.isDigit 'm' = false := rfl
  have n4 : Char.isDigit 'd' = false := rfl
  simp [List.filter_cons, h1, h2, h3, h4, h5, h6, h7, h8, n1, n2, n3, n4]

/-- Between two strict daily names, descending filename order is
descending (newest-first) date order. -/
lemma dateKey_ge_of_nameGe (a b : DirEntry)
    (ha : isDailyName a.name.data = true) (hb : isDailyName b.name.data = true)
    (h : nameGe a b) : dateKey b.name ≤ dateKey a.name := by
  obtain ⟨y1, y2, y3, y4, m1, m2, d1, d2, hae, ha1, ha2, ha3, ha4, ha5, ha6, ha7, ha8⟩ :=
    dailyName_shape _ ha
  obtain ⟨z1, z2, z3, z4, n1, n2, e1, e2, hbe, hb1, hb2, hb3, hb4, hb5, hb6, hb7, hb8⟩ :=
    dailyName_shape _ hb
  rw [nameGe, hae, hbe, lexLt_dailyNames] at h
  rw [dateKey, dateKey, hae, hbe,
    filter_dailyName _ _ _ _ _ _ _ _ ha1 ha2 ha3 ha4 ha5 ha6 ha7 ha8,
    filter_dailyName _ _ _ _ _ _ _ _ hb1 hb2 hb3 hb4 hb5 hb6 hb7 hb8]
  have hda : ∀ c ∈ [y1, y2, y3, y4, m1, m2, d1, d2], c.isDigit = true := by
    intro c hc
    simp only [List.mem_cons, List.not_mem_nil, or_false] at hc
    rcases hc with rfl | rfl | rfl | rfl | rfl | rfl | rfl | rfl <;> assumption
  have hdb : ∀ c ∈ [z1, z2, z3, z4, n1, n2, e1, e2], c.isDigit = true := by
    intro c hc
    simp only [List.mem_cons, List.not_mem_nil, or_false] at hc
    rcases hc with rfl | rfl | rfl | rfl | rfl | rfl | rfl | rfl <;> assumption
  by_contra hc
  push_neg at hc
  have hlex := (lexLt_digits_iff [y1, y2, y3, y4, m1, m2, d1, d2]
    [z1, z2, z3, z4, n1, n2, e1, e2] (by simp) hda hdb).mpr hc
  rw [hlex] at h
  simp at h

/-- C9 counterexample: the directory entry `"aaaa-bb-cc.md"` is returned
by `MemoryStore.list_memory_files` — its glob `????-??-??.md` accepts ANY
character in the `?` positions — even though its name does not match the
4-2-2 digit date pattern. -/
theorem list_memory_files_glob_cex :
    MemoryStore.list_memory_files [⟨"aaaa-bb-cc.md", true, []⟩] =
      [⟨"aaaa-bb-cc.md", true, []⟩] ∧
    isDailyName "aaaa-bb-cc.md".data = false := by decide

/-- C9 amended: every path returned by the two `_get_daily_memory_files`
helpers is a regular file whose name exactly matches the 4-2-2 digit date
pattern with `.md`, other directory entries are ignored without error, and
the output is ordered newest date first.  `MemoryStore.list_memory_files`,
however, filters only with the wildcard glob `????-??-??.md` (any
characters in the `?` positions, no regular-file check), so names such as
`aaaa-bb-cc.md` are also returned; its output is sorted by filename
descending. -/
theorem daily_enumeration_spec (dir : List DirEntry) :
    (∀ e ∈ MemoryStore.get_daily_memory_files dir,
      isDailyName e.name.data = true ∧ e.isFile = true) ∧
    (MemoryStore.get_daily_memory_files dir).Pairwise
      (fun a b => dateKey b.name ≤ dateKey a.name) ∧
    (∀ e ∈ MemorySearchTool.get_daily_memory_files dir,
      isDailyName e.name.data = true ∧ e.isFile = true) ∧
    (MemorySearchTool.get_daily_memory_files dir).Pairwise
      (fun a b => dateKey b.name ≤ dateKey a.name) ∧
    (∀ e ∈ MemoryStore.list_memory_files dir, isGlobDailyName e.name.data = true) ∧
    (MemoryStore.list_memory_files dir).Pairwise nameGe := by
  have hmem : ∀ e ∈ MemoryStore.get_daily_memory_files dir,
      isDailyName e.name.data = true ∧ e.isFile = true := by
    intro e he
    rw [MemoryStore.get_daily_memory_files, mem_sortByNameDesc, List.mem_filter] at he
    obtain ⟨_, hp⟩ := he
    rw [Bool.and_eq_true] at hp
    exact ⟨hp.2, hp.1⟩
  have hpair : (MemoryStore.get_daily_memory_files dir).Pairwise
      (fun a b => dateKey b.name ≤ dateKey a.name) := by
    have hsorted : (MemoryStore.get_daily_memory_files dir).Pairwise nameGe :=
      pairwise_sortByNameDesc _
    exact hsorted.imp_of_mem
      (fun ha hb hr => dateKey_ge_of_nameGe _ _ (hmem _ ha).1 (hmem _ hb).1 hr)
  have hsame : MemorySearchTool.get_daily_memory_files dir =
      MemoryStore.get_daily_memory_files dir := rfl
  refine ⟨hmem, hpair, ?_, ?_, ?_, ?_⟩
  · rw [hsame]
    exact hmem
  · rw [hsame]
    exact hpair
  · intro e he
    rw [MemoryStore.list_memory_files, mem_sortByNameDesc, List.mem_filter] at he
    exact he.2
  · exact pairwise_sortByNameDesc _

/-- C9 witness: the amended enumeration properties applied to a concrete
directory holding two daily files and a stray `notes.txt`. -/
theorem daily_enumeration_spec_witness :
    ((⟨"2024-03-01.md", true, []⟩ : DirEntry) ∈ MemoryStore.get_daily_memory_files
      [⟨"2024-01-02.md", true, []⟩, ⟨"notes.txt", true, []⟩,
       ⟨"2024-03-01.md", true, []⟩]) ∧
    (isDailyName ("2024-03-01.md".data) = true ∧ (true : Bool) = true) ∧
    (MemoryStore.get_daily_memory_files
      [⟨"2024-01-02.md", true, []⟩, ⟨"notes.txt", true, []⟩,
       ⟨"2024-03-01.md", true, []⟩]).Pairwise
        (fun a b => dateKey b.name ≤ dateKey a.name) :=
  ⟨by decide,
   (daily_enumeration_spec
     [⟨"2024-01-02.md", true, []⟩, ⟨"notes.txt", true, []⟩,
      ⟨"2024-03-01.md", true, []⟩]).1 ⟨"2024-03-01.md", true, []⟩ (by decide),
   (daily_enumeration_spec
     [⟨"2024-01-02.md", true, []⟩, ⟨"notes.txt", true, []⟩,
      ⟨"2024-03-01.md", true, []⟩]).2.1⟩
